import Mathlib

/-
Verification development for the two CSV utilities of this repository:
`csv_diferencial-v1.0.py` (differential filter) and `generate-magnets.py`
(magnet generator).  Python rows (csv.DictReader dictionaries) are embedded
as association lists of string pairs; fallible Python expressions (int(...),
dict[key]) are embedded as Option-returning functions, and the try/except
blocks as matches on those Options.
-/

namespace EplTools

/-- A CSV row as produced by Python csv.DictReader: an ordered list of
field-name / value pairs, looked up by first match. -/
abbrev Row := List (String × String)

/-- Python `row[k]` / `row.get(k)`: the first value bound to key `k`,
or none when the key is absent (dict access raising KeyError). -/
def getField? (row : Row) (k : String) : Option String :=
  (row.find? (fun p => p.1 == k)).map (fun p => p.2)

/-- Python `row.get(k, d)`: lookup with a default. -/
def getFieldD (row : Row) (k d : String) : String :=
  (getField? row k).getD d

/-- Python str.strip whitespace class, ASCII fragment: space, tab,
newline, carriage return, vertical tab, form feed. -/
def isPySpace (c : Char) : Bool :=
  c = ' ' || c = '\t' || c = '\n' || c = '\r' || c = '\x0b' || c = '\x0c'

/-- Python str.strip with no argument: remove leading and trailing
whitespace. -/
def pyStrip (s : String) : String :=
  String.mk
    (((s.toList.dropWhile isPySpace).reverse.dropWhile isPySpace).reverse)

/-- Splitting helper for pySplitComma: accumulate the current piece in
reverse, emit a piece at each separator. -/
def splitCommaAux : List Char → List Char → List String
  | [], acc => [String.mk acc.reverse]
  | c :: cs, acc =>
    if c = ',' then String.mk acc.reverse :: splitCommaAux cs []
    else splitCommaAux cs (c :: acc)

/-- Python str.split on a comma: pieces between separators, one piece per
separator plus one, so the empty string yields one empty piece and
adjacent commas yield empty pieces. -/
def pySplitComma (s : String) : List String :=
  splitCommaAux s.toList []

/-- Numeric value of a decimal digit, none for a non-digit. -/
def digitVal? (c : Char) : Option Nat :=
  if c.isDigit then some (c.toNat - Char.toNat '0') else none

/-- Accumulate the decimal value of a digit string; none on a non-digit. -/
def digitsValAux : Nat → List Char → Option Nat
  | acc, [] => some acc
  | acc, c :: cs =>
    match digitVal? c with
    | some d => digitsValAux (acc * 10 + d) cs
    | none => none

/-- Decimal value of a nonempty all-digit character list; none otherwise. -/
def digitsVal? (l : List Char) : Option Nat :=
  if l.isEmpty then none else digitsValAux 0 l

/-- Python `int(s)` on a string: optional sign followed by decimal digits,
surrounding whitespace tolerated; none models a ValueError.  (Exotic
accepted forms such as underscore separators are outside the modelled
fragment; no caller in this repository produces them.) -/
def parseInt? (s : String) : Option Int :=
  match (pyStrip s).toList with
  | [] => none
  | '+' :: rest => (digitsVal? rest).map (fun n => (n : Int))
  | '-' :: rest => (digitsVal? rest).map (fun n => -(n : Int))
  | l => (digitsVal? l).map (fun n => (n : Int))

/-- Unsigned part of Python `int(float(s))`: decimal digits with an optional
fractional part (at least one digit overall); the fraction is truncated. -/
def parseUnsignedFloatTrunc? (l : List Char) : Option Nat :=
  let ip := l.takeWhile Char.isDigit
  let rest := l.drop ip.length
  match rest with
  | [] => if ip.isEmpty then none else digitsValAux 0 ip
  | '.' :: frac =>
    if frac.all Char.isDigit && (!ip.isEmpty || !frac.isEmpty) then
      digitsValAux 0 ip
    else none
  | _ => none

/-- Python `int(float(s))`: signed decimal number, optional fractional part,
truncated toward zero; none models a ValueError.  (Exponent and special
float forms are outside the modelled fragment; the reference files this
script consumes carry plain decimal identifiers.) -/
def parseFloatTrunc? (s : String) : Option Int :=
  match (pyStrip s).toList with
  | [] => none
  | '+' :: rest => (parseUnsignedFloatTrunc? rest).map (fun n => (n : Int))
  | '-' :: rest => (parseUnsignedFloatTrunc? rest).map (fun n => -(n : Int))
  | l => (parseUnsignedFloatTrunc? l).map (fun n => (n : Int))

/-- Step 1 of csv_diferencial (lines 110-116), per row: the key contributed
by one reference row, namely the pair of int(float(...)) applied to the
stripped #epg_id field and the stripped #version field; none models the
ValueError / KeyError caught by the except-continue. -/
def refKey? (row : Row) : Option (Int × String) :=
  match getField? row "#epg_id" with
  | none => none
  | some s =>
    match parseFloatTrunc? (pyStrip s) with
    | none => none
    | some n =>
      match getField? row "#version" with
      | none => none
      | some v => some (n, pyStrip v)

/-- Python `set.add`: insert a key unless already present (the reference
set of the script is a Python set; membership is all that is consumed, so
it is embedded as a duplicate-free list). -/
def pySetInsert (s : List (Int × String)) (k : Int × String) : List (Int × String) :=
  if k ∈ s then s else s ++ [k]

/-- Step 1 loop of csv_diferencial: fold the reference rows into the
`mis_libros_set`, skipping rows whose key fails to parse. -/
def buildKeySet (rows : List Row) : List (Int × String) :=
  rows.foldl
    (fun s row =>
      match refKey? row with
      | some k => pySetInsert s k
      | none => s)
    []

/-- Line 145 of csv_diferencial: the test that language_filter is truthy
and the stripped Idioma field (empty default) is not in language_filter.
The allow-list is None (no --languages and empty config default) or a list;
Python truthiness makes an empty list behave as no filtering. -/
def langBlocked (lf : Option (List String)) (row : Row) : Bool :=
  match lf with
  | none => false
  | some langs => !langs.isEmpty && !langs.contains (pyStrip (getFieldD row "Idioma" ""))

/-- Lines 149-150 of csv_diferencial: the membership key of a large-dataset
row, 10000000 plus the int of the stripped EPL Id field, paired with the
stripped Revisión field; none models any exception raised there (missing
column as KeyError, non-numeric identifier as ValueError), which the
per-row try/except catches. -/
def evalKey? (row : Row) : Option (Int × String) :=
  match getField? row "EPL Id" with
  | none => none
  | some s =>
    match parseInt? (pyStrip s) with
    | none => none
    | some n =>
      match getField? row "Revisión" with
      | none => none
      | some v => some (10000000 + n, pyStrip v)

/-- Lines 152 and 160 of csv_diferencial: the dict comprehension
restricting a row to the header field names before writing it out. -/
def projectRow (fieldnames : List String) (row : Row) : Row :=
  row.filter (fun p => fieldnames.contains p.1)

/-- Counters and output stream of the Step 2 loop of csv_diferencial.
`warnings` counts invocations of the warning log on the exception path
(line 159); the log sink itself is out of scope. -/
structure FilterState where
  processed : Nat
  kept : Nat
  skipped : Nat
  warnings : Nat
  output : List Row
deriving DecidableEq

/-- Initial counters of the Step 2 loop (lines 121-123). -/
def initialFilterState : FilterState := ⟨0, 0, 0, 0, []⟩

/-- One iteration of the Step 2 loop of csv_diferencial (lines 136-162):
count the row, apply the language filter, then test membership of the
row's key in the reference set; rows whose key raises are kept with a
warning (lines 157-162). -/
def processRow (refSet : List (Int × String)) (lf : Option (List String))
    (fieldnames : List String) (st : FilterState) (row : Row) : FilterState :=
  let st1 : FilterState := { st with processed := st.processed + 1 }
  if langBlocked lf row then
    { st1 with skipped := st1.skipped + 1 }
  else
    match evalKey? row with
    | some k =>
      if k ∈ refSet then
        { st1 with skipped := st1.skipped + 1 }
      else
        { st1 with kept := st1.kept + 1,
                   output := st1.output ++ [projectRow fieldnames row] }
    | none =>
      { st1 with kept := st1.kept + 1,
                 warnings := st1.warnings + 1,
                 output := st1.output ++ [projectRow fieldnames row] }

/-- Step 2 loop of csv_diferencial over the whole large dataset. -/
def csvDiferencial (refSet : List (Int × String)) (lf : Option (List String))
    (fieldnames : List String) (rows : List Row) : FilterState :=
  rows.foldl (processRow refSet lf fieldnames) initialFilterState

/-- Per-row emission decision of the Step 2 loop in functional form: a row
is written to the output exactly when it passes the language filter and its
membership key is either absent (exception path, conservatively kept) or
not in the reference set. -/
def rowKept (refSet : List (Int × String)) (lf : Option (List String))
    (row : Row) : Bool :=
  !langBlocked lf row &&
    (match evalKey? row with
     | some k => !(decide (k ∈ refSet))
     | none => true)

/-- The six hardcoded tracker endpoints of generate-magnets (lines 23-30). -/
def DEFAULT_TRACKERS : List String :=
  ["http://tracker.openbittorrent.com:80/announce",
   "udp://tracker.openbittorrent.com:6969/announce",
   "udp://tracker.torrent.eu.org:451",
   "udp://open.demonii.com:1337",
   "udp://tracker.opentrackr.org:1337/announce",
   "udp://tracker.cyberia.is:6969/announce"]

/-- Characters Python urllib quote / quote_plus never encodes with the
default empty safe set: ASCII letters, digits, underscore, dot, hyphen,
tilde. -/
def quoteSafe (c : Char) : Bool :=
  c.isAlpha || c.isDigit || c = '_' || c = '.' || c = '-' || c = '~'

/-- Uppercase hexadecimal digit of a value below 16. -/
def hexDigit (n : Nat) : Char :=
  if n < 10 then Char.ofNat (Char.toNat '0' + n)
  else Char.ofNat (Char.toNat 'A' + n - 10)

/-- Percent-encoding of one byte, uppercase hex as urllib produces. -/
def percentByte (b : Nat) : String :=
  String.mk ['%', hexDigit (b / 16), hexDigit (b % 16)]

/-- UTF-8 bytes of one character (as Nat values below 256). -/
def utf8Bytes (c : Char) : List Nat :=
  let n := c.toNat
  if n < 128 then [n]
  else if n < 2048 then [192 + n / 64, 128 + n % 64]
  else if n < 65536 then [224 + n / 4096, 128 + n / 64 % 64, 128 + n % 64]
  else [240 + n / 262144, 128 + n / 4096 % 64, 128 + n / 64 % 64, 128 + n % 64]

/-- Python urllib.parse.quote_plus with its defaults: UTF-8 encode, keep
the always-safe characters, map space to plus, percent-encode every other
byte with uppercase hex. -/
def quote_plus (s : String) : String :=
  String.join
    (s.toList.map
      (fun c =>
        if quoteSafe c then String.mk [c]
        else if c = ' ' then "+"
        else String.join ((utf8Bytes c).map percentByte)))

/-- NFKD decomposition of one character followed by dropping the code
points outside ASCII, as the composition on line 74-76 of generate-magnets
performs; ASCII characters pass through, Latin letters with diacritics
decompose to their base letter plus combining marks (which the ASCII
filter drops), and every other non-ASCII character in the modelled
repertoire decomposes to non-ASCII sequences and vanishes. -/
def nfkdAsciiChar (c : Char) : List Char :=
  if c.toNat < 128 then [c]
  else
    match c with
    | 'á' | 'à' | 'ä' | 'â' | 'ã' | 'å' => ['a']
    | 'é' | 'è' | 'ë' | 'ê' => ['e']
    | 'í' | 'ì' | 'ï' | 'î' => ['i']
    | 'ó' | 'ò' | 'ö' | 'ô' | 'õ' => ['o']
    | 'ú' | 'ù' | 'ü' | 'û' => ['u']
    | 'ñ' => ['n']
    | 'ç' => ['c']
    | 'ý' | 'ÿ' => ['y']
    | 'Á' | 'À' | 'Ä' | 'Â' | 'Ã' | 'Å' => ['A']
    | 'É' | 'È' | 'Ë' | 'Ê' => ['E']
    | 'Í' | 'Ì' | 'Ï' | 'Î' => ['I']
    | 'Ó' | 'Ò' | 'Ö' | 'Ô' | 'Õ' => ['O']
    | 'Ú' | 'Ù' | 'Ü' | 'Û' => ['U']
    | 'Ñ' => ['N']
    | 'Ç' => ['C']
    | 'Ý' => ['Y']
    | _ => []

/-- Lines 74-76 of generate-magnets: normalize NFKD then encode ASCII with
errors ignored, i.e. strip diacritics and drop every remaining non-ASCII
character. -/
def asciiFold (s : String) : String :=
  String.mk (s.toList.foldr (fun c acc => nfkdAsciiChar c ++ acc) [])

/-- Python or-chain step over an optional dict value: a missing key (None)
and an empty string are falsy, anything else short-circuits. -/
def pyOrOpt (a : Option String) (b : String) : String :=
  match a with
  | some s => if s = "" then b else s
  | none => b

/-- Lines 74-76 of generate-magnets: the title, first truthy of the
Título / Titulo / titulo fields (the last with an empty-string default),
accent-stripped. -/
def titleOf (row : Row) : String :=
  asciiFold
    (pyOrOpt (getField? row "Título")
      (pyOrOpt (getField? row "Titulo") (getFieldD row "titulo" "")))

/-- Lines 78-84 of generate-magnets: the identifier, first truthy of the
EPL Id / Id / ID / epl_id fields, with literal NA fallback. -/
def eplIdOf (row : Row) : String :=
  pyOrOpt (getField? row "EPL Id")
    (pyOrOpt (getField? row "Id")
      (pyOrOpt (getField? row "ID")
        (pyOrOpt (getField? row "epl_id") "NA")))

/-- Line 85 and the f-string on line 88 of generate-magnets: the Revisión
field as rendered inside the display name; a missing key is the Python
None value, which the f-string renders as the text None. -/
def revStrOf (row : Row) : String :=
  match getField? row "Revisión" with
  | some s => s
  | none => "None"

/-- Line 88 of generate-magnets: the display name, the fixed textual
pattern around identifier, folded title and revision, stripped of
surrounding whitespace; deliberately not percent-encoded (line 93 uses dn,
not the commented-out quoted form). -/
def displayNameOf (row : Row) : String :=
  pyStrip ("EPL_[" ++ eplIdOf row ++ "]_" ++ titleOf row ++ "_(r" ++ revStrOf row ++ ")")

/-- Line 91 of generate-magnets: the tracker query-string, each endpoint
percent-encoded with quote_plus and prefixed tr=, joined by ampersands. -/
def trackersParam : String :=
  String.intercalate "&" (DEFAULT_TRACKERS.map (fun t => "tr=" ++ quote_plus t))

/-- Lines 72-93 of generate-magnets, sanitize_and_encode: one magnet URI
from a catalog row and one content hash. -/
def sanitize_and_encode (row : Row) (enlace : String) : String :=
  "magnet:?xt=urn:btih:" ++ enlace ++ "&dn=" ++ displayNameOf row ++ "&" ++ trackersParam

/-- Lines 221-222 of generate-magnets: split the Enlace(s) field (empty
default) on commas, keep the entries whose strip is truthy, stripped. -/
def enlacesOf (row : Row) : List String :=
  ((pySplitComma (getFieldD row "Enlace(s)" "")).filter
    (fun e => pyStrip e ≠ "")).map pyStrip

/-- Lines 219-225 of generate-magnets: the magnet accumulation loop over
all rows, appending one URI per surviving enlace entry. -/
def buildMagnets (rows : List Row) : List String :=
  rows.foldl
    (fun magnets row =>
      magnets ++ (enlacesOf row).map (fun enlace => sanitize_and_encode row enlace))
    []

/-- Observable effects of push_to_qbittorrent in API mode: the login post,
one torrents/add post per batch carrying the newline-joined URI payload,
and the sleeps. -/
inductive ApiEvent where
  | login : ApiEvent
  | submit : String → ApiEvent
  | sleep : Nat → ApiEvent
deriving DecidableEq

/-- True exactly on a batch submission event. -/
def isSubmit : ApiEvent → Bool
  | ApiEvent.submit _ => true
  | _ => false

/-- Result of a push_to_qbittorrent run: the ordered effect trace and the
exit code of a sys.exit, none when the function returns normally. -/
structure PushOutcome where
  events : List ApiEvent
  exitCode : Option Nat
deriving DecidableEq

/-- Lines 131-140 of generate-magnets: the batch loop, iterating i over
range(0, total, batch_size).  The first argument after stop is the current
start index i, the second the number of remaining loop iterations (the
remaining length of the Python range).  stop gives, for each batch
ordinal, the value of the stop_requested flag observed at the check
opening that iteration; the extra 10th-batch sleep keys on i divided by
batch_size as the source writes it. -/
def pushLoop (magnets : List String) (batchSize delay batchDelay : Nat)
    (stop : Nat → Bool) : Nat → Nat → List ApiEvent
  | _, 0 => []
  | i, n + 1 =>
    if stop (i / batchSize) then []
    else
      ApiEvent.submit (String.intercalate "\n" ((magnets.drop i).take batchSize)) ::
      ApiEvent.sleep delay ::
      ((if (i / batchSize + 1) % 10 = 0 then [ApiEvent.sleep batchDelay] else []) ++
       pushLoop magnets batchSize delay batchDelay stop (i + batchSize) n)

/-- Length of Python range(0, total, step) for a positive step: the
ceiling of total / step. -/
def pyRangeLen (total step : Nat) : Nat := (total + step - 1) / step

/-- Lines 117-142 of generate-magnets, push_to_qbittorrent: authenticate
(the login response body is passed in as the environment of the run), exit
1 unless the body is the exact literal Ok-dot, else run the batch loop.
The sent counter and log lines are out of scope; the effect trace records
exactly the network posts and sleeps. -/
def push_to_qbittorrent (loginResp : String) (magnets : List String)
    (batchSize delay batchDelay : Nat) (stop : Nat → Bool) : PushOutcome :=
  if loginResp ≠ "Ok." then
    { events := [ApiEvent.login], exitCode := some 1 }
  else
    { events := ApiEvent.login ::
        pushLoop magnets batchSize delay batchDelay stop 0
          (pyRangeLen magnets.length batchSize),
      exitCode := none }

/-- Events of one batch with ordinal j, stated over the batch ordinal (the
loop index i equals j times the batch size): the submission of the j-th
slice, the fixed sleep, and the extra longer sleep after every 10th batch. -/
def batchBlock (magnets : List String) (batchSize delay batchDelay j : Nat) :
    List ApiEvent :=
  ApiEvent.submit (String.intercalate "\n" ((magnets.drop (j * batchSize)).take batchSize)) ::
  ApiEvent.sleep delay ::
  (if (j + 1) % 10 = 0 then [ApiEvent.sleep batchDelay] else [])

lemma processRow_output (refSet : List (Int × String)) (lf : Option (List String))
    (fieldnames : List String) (st : FilterState) (row : Row) :
    (processRow refSet lf fieldnames st row).output
      = if rowKept refSet lf row then st.output ++ [projectRow fieldnames row]
        else st.output := by
  by_cases hl : langBlocked lf row = true
  · simp [processRow, rowKept, hl]
  · simp only [Bool.not_eq_true] at hl
    cases hk : evalKey? row with
    | some k =>
      by_cases hm : k ∈ refSet
      · simp [processRow, rowKept, hl, hk, hm]
      · simp [processRow, rowKept, hl, hk, hm]
    | none => simp [processRow, rowKept, hl, hk]

lemma csvDiferencial_foldl_output (refSet : List (Int × String))
    (lf : Option (List String)) (fieldnames : List String) :
    ∀ (rows : List Row) (st : FilterState),
      (rows.foldl (processRow refSet lf fieldnames) st).output
        = st.output ++ (rows.filter (rowKept refSet lf)).map (projectRow fieldnames) := by
  intro rows
  induction rows with
  | nil => intro st; simp
  | cons r rs ih =>
    intro st
    simp only [List.foldl_cons, List.filter_cons]
    rw [ih]
    cases hr : rowKept refSet lf r
    · simp [processRow_output, hr]
    · simp [processRow_output, hr]

/-- C1: over the whole run, the output stream of the Step 2 loop is
exactly the in-order projection (onto the header columns) of the rows the
per-row decision keeps; for a row whose membership key evaluates without
exception the decision keeps it exactly when it passes the language filter
and the key is not in the reference set; and the projection leaves a row
unchanged whenever all its columns are header columns. -/
theorem C1_membership_filter (refSet : List (Int × String))
    (lf : Option (List String)) (fieldnames : List String) (rows : List Row) :
    (csvDiferencial refSet lf fieldnames rows).output
        = (rows.filter (rowKept refSet lf)).map (projectRow fieldnames)
      ∧ (∀ (row : Row) (k : Int × String), evalKey? row = some k →
          rowKept refSet lf row = (!langBlocked lf row && !(decide (k ∈ refSet))))
      ∧ (∀ row : Row, (∀ p ∈ row, fieldnames.contains p.1) →
          projectRow fieldnames row = row) := by
  refine ⟨?_, ?_, ?_⟩
  · rw [csvDiferencial, csvDiferencial_foldl_output]
    simp [initialFilterState]
  · intro row k hk
    simp [rowKept, hk]
  · intro row h
    exact List.filter_eq_self.mpr h

/-- C1 witness: the worked example of the spec, reference set holding the
offset key (10000001, 3); the large row with identifier 1 and revision 3
is excluded, the row with revision 4 is kept unchanged. -/
theorem C1_membership_filter_witness :
    (csvDiferencial [((10000001 : Int), "3")] none ["EPL Id", "Revisión"]
        [[("EPL Id", "1"), ("Revisión", "3")], [("EPL Id", "1"), ("Revisión", "4")]]).output
      = [[("EPL Id", "1"), ("Revisión", "4")]]
    ∧ rowKept [((10000001 : Int), "3")] none [("EPL Id", "1"), ("Revisión", "3")] = false
    ∧ projectRow ["EPL Id", "Revisión"] [("EPL Id", "1"), ("Revisión", "4")]
      = [("EPL Id", "1"), ("Revisión", "4")] := by
  have h := C1_membership_filter [((10000001 : Int), "3")] none ["EPL Id", "Revisión"]
    [[("EPL Id", "1"), ("Revisión", "3")], [("EPL Id", "1"), ("Revisión", "4")]]
  refine ⟨h.1.trans (by decide), ?_, h.2.2 [("EPL Id", "1"), ("Revisión", "4")] (by decide)⟩
  exact (h.2.1 [("EPL Id", "1"), ("Revisión", "3")] (10000001, "3") (by decide)).trans (by decide)

/-- C2: with no allow-list the per-row decision ignores the language field
and reduces to the membership test alone, so the whole run keeps every row
regardless of language; with a configured (nonempty) allow-list, a row
whose trimmed Idioma field is not one of its entries is dropped whatever
the reference set holds, i.e. before membership is consulted. -/
theorem C2_language_filter :
    (∀ (refSet : List (Int × String)) (row : Row),
        rowKept refSet none row
          = (match evalKey? row with
             | some k => !(decide (k ∈ refSet))
             | none => true))
      ∧ (∀ (refSet : List (Int × String)) (fieldnames : List String) (rows : List Row),
          (csvDiferencial refSet none fieldnames rows).output
            = (rows.filter
                (fun row =>
                  match evalKey? row with
                  | some k => !(decide (k ∈ refSet))
                  | none => true)).map (projectRow fieldnames))
      ∧ (∀ (refSet : List (Int × String)) (langs : List String) (row : Row),
          langs ≠ [] → langs.contains (pyStrip (getFieldD row "Idioma" "")) = false →
            rowKept refSet (some langs) row = false) := by
  refine ⟨?_, ?_, ?_⟩
  · intro refSet row
    simp [rowKept, langBlocked]
  · intro refSet fieldnames rows
    rw [csvDiferencial, csvDiferencial_foldl_output]
    simp only [initialFilterState, List.nil_append]
    have hp : ∀ row : Row,
        rowKept refSet none row
          = (match evalKey? row with
             | some k => !(decide (k ∈ refSet))
             | none => true) := by
      intro row
      simp [rowKept, langBlocked]
    rw [List.filter_congr (fun row _ => hp row)]
  · intro refSet langs row hne hco
    cases langs with
    | nil => exact absurd rfl hne
    | cons a as =>
      have hb : langBlocked (some (a :: as)) row = true := by
        show (!(a :: as).isEmpty
          && !(a :: as).contains (pyStrip (getFieldD row "Idioma" ""))) = true
        rw [hco]
        rfl
      simp [rowKept, hb]

/-- C2 witness: an unlisted language is dropped even with an empty
reference set, while with no allow-list the same row falls through to the
membership test. -/
theorem C2_language_filter_witness :
    rowKept [] (some ["Español"]) [("Idioma", "Klingon")] = false
    ∧ rowKept [] none [("Idioma", "Klingon")]
      = (match evalKey? [("Idioma", "Klingon")] with
         | some k => !(decide (k ∈ ([] : List (Int × String))))
         | none => true) := by
  refine ⟨C2_language_filter.2.2 [] ["Español"] [("Idioma", "Klingon")] (by decide) (by decide), ?_⟩
  exact C2_language_filter.1 [] [("Idioma", "Klingon")]

/-- C3: a row passing the language filter whose membership key raises (the
key evaluates to none) takes the exception branch of the loop: it is
written to the output, counted as kept, and the warning log fires; the
handler is total, so no exception escapes the per-row loop. -/
theorem C3_exception_keeps_row (refSet : List (Int × String))
    (lf : Option (List String)) (fieldnames : List String) (st : FilterState)
    (row : Row) (h1 : langBlocked lf row = false) (h2 : evalKey? row = none) :
    processRow refSet lf fieldnames st row
      = { st with processed := st.processed + 1,
                  kept := st.kept + 1,
                  warnings := st.warnings + 1,
                  output := st.output ++ [projectRow fieldnames row] } := by
  simp [processRow, h1, h2]

/-- C3 witness: the spec example, a row with the unparsable identifier abc
is emitted and counted kept, with one warning recorded. -/
theorem C3_exception_keeps_row_witness :
    processRow [] none ["EPL Id", "Revisión"] initialFilterState
        [("EPL Id", "abc"), ("Revisión", "1")]
      = { processed := 1, kept := 1, skipped := 0, warnings := 1,
          output := [[("EPL Id", "abc"), ("Revisión", "1")]] } := by
  have h := C3_exception_keeps_row [] none ["EPL Id", "Revisión"] initialFilterState
    [("EPL Id", "abc"), ("Revisión", "1")] (by decide) (by decide)
  exact h.trans (by decide)

lemma mem_foldl_pySetInsert :
    ∀ (rows : List Row) (s : List (Int × String)) (k : Int × String),
      (k ∈ rows.foldl
        (fun s row =>
          match refKey? row with
          | some k => pySetInsert s k
          | none => s) s)
        ↔ k ∈ s ∨ ∃ r, r ∈ rows ∧ refKey? r = some k := by
  intro rows
  induction rows with
  | nil => intro s k; simp
  | cons r rs ih =>
    intro s k
    simp only [List.foldl_cons]
    rw [ih]
    cases hr : refKey? r with
    | some k0 =>
      constructor
      · rintro (hs | hrest)
        · by_cases hk : k = k0
          · exact Or.inr ⟨r, List.mem_cons_self r rs, hk ▸ hr⟩
          · simp only [pySetInsert] at hs
            split at hs
            · exact Or.inl hs
            · rcases List.mem_append.mp hs with h | h
              · exact Or.inl h
              · simp at h; exact absurd h hk
        · rcases hrest with ⟨r0, hr0, hk0⟩
          exact Or.inr ⟨r0, List.mem_cons_of_mem r hr0, hk0⟩
      · rintro (hs | ⟨r0, hr0, hk0⟩)
        · left
          simp only [pySetInsert]
          split
          · exact hs
          · exact List.mem_append.mpr (Or.inl hs)
        · rcases List.mem_cons.mp hr0 with h | h
          · subst h
            rw [hr] at hk0
            have hkk : k0 = k := Option.some.inj hk0
            subst hkk
            left
            simp only [pySetInsert]
            split
            · next hmem => exact hmem
            · exact List.mem_append.mpr (Or.inr (by simp))
          · exact Or.inr ⟨r0, h, hk0⟩
    | none =>
      constructor
      · rintro (hs | ⟨r0, hr0, hk0⟩)
        · exact Or.inl hs
        · exact Or.inr ⟨r0, List.mem_cons_of_mem r hr0, hk0⟩
      · rintro (hs | ⟨r0, hr0, hk0⟩)
        · exact Or.inl hs
        · rcases List.mem_cons.mp hr0 with h | h
          · subst h; rw [hr] at hk0; exact absurd hk0 (by simp)
          · exact Or.inr ⟨r0, h, hk0⟩

lemma nodup_foldl_pySetInsert :
    ∀ (rows : List Row) (s : List (Int × String)), s.Nodup →
      (rows.foldl
        (fun s row =>
          match refKey? row with
          | some k => pySetInsert s k
          | none => s) s).Nodup := by
  intro rows
  induction rows with
  | nil => intro s hs; exact hs
  | cons r rs ih =>
    intro s hs
    simp only [List.foldl_cons]
    apply ih
    cases refKey? r with
    | some k =>
      simp only [pySetInsert]
      split
      · exact hs
      · next hk => simp [List.nodup_append, hs, hk]
    | none => exact hs

/-- C4: a key belongs to the reference set built by Step 1 exactly when
some reference row parses to it (truncated numeric #epg_id, trimmed
#version); rows that fail to parse contribute nothing and abort nothing,
and the set is duplicate-free, so repeated keys collapse. -/
theorem C4_keyset_construction (rows : List Row) :
    (∀ k : Int × String,
        k ∈ buildKeySet rows ↔ ∃ r, r ∈ rows ∧ refKey? r = some k)
      ∧ (buildKeySet rows).Nodup := by
  constructor
  · intro k
    rw [buildKeySet, mem_foldl_pySetInsert]
    simp
  · exact nodup_foldl_pySetInsert rows [] List.nodup_nil

/-- C4 witness: two reference rows parsing to the same key (one with a
fractional identifier form) and one malformed row yield the singleton
duplicate-free set. -/
theorem C4_keyset_construction_witness :
    ((10000001 : Int), "3") ∈ buildKeySet
        [[("#epg_id", "10000001.0"), ("#version", "3")],
         [("#epg_id", "x"), ("#version", "3")],
         [("#epg_id", "10000001"), ("#version", " 3 ")]]
      ∧ (buildKeySet
          [[("#epg_id", "10000001.0"), ("#version", "3")],
           [("#epg_id", "x"), ("#version", "3")],
           [("#epg_id", "10000001"), ("#version", " 3 ")]]).Nodup := by
  have h := C4_keyset_construction
    [[("#epg_id", "10000001.0"), ("#version", "3")],
     [("#epg_id", "x"), ("#version", "3")],
     [("#epg_id", "10000001"), ("#version", " 3 ")]]
  exact ⟨(h.1 (10000001, "3")).mpr
    ⟨[("#epg_id", "10000001.0"), ("#version", "3")], by decide, by decide⟩, h.2⟩

set_option maxRecDepth 8000

/-- C5: on the spec example row (title with an accent, identifier 42,
revision 2) the magnet URI is the btih prefix around the given hash, the
display name EPL_[42]_Ano_(r2) with the accent stripped and no percent
encoding, and the fixed tracker suffix; that suffix is the explicit
six-entry percent-encoded literal, independent of the row. -/
theorem C5_magnet_display_name :
    (∀ enlace : String,
        sanitize_and_encode [("Título", "Año"), ("EPL Id", "42"), ("Revisión", "2")] enlace
          = "magnet:?xt=urn:btih:" ++ enlace ++ "&dn=" ++ "EPL_[42]_Ano_(r2)"
              ++ "&" ++ trackersParam)
      ∧ trackersParam
        = "tr=http%3A%2F%2Ftracker.openbittorrent.com%3A80%2Fannounce&tr=udp%3A%2F%2Ftracker.openbittorrent.com%3A6969%2Fannounce&tr=udp%3A%2F%2Ftracker.torrent.eu.org%3A451&tr=udp%3A%2F%2Fopen.demonii.com%3A1337&tr=udp%3A%2F%2Ftracker.opentrackr.org%3A1337%2Fannounce&tr=udp%3A%2F%2Ftracker.cyberia.is%3A6969%2Fannounce"
      ∧ DEFAULT_TRACKERS.length = 6 := by
  exact ⟨fun enlace => rfl, by decide, rfl⟩

lemma buildMagnets_foldl :
    ∀ (rows : List Row) (acc : List String),
      rows.foldl
        (fun magnets row =>
          magnets ++ (enlacesOf row).map (fun enlace => sanitize_and_encode row enlace))
        acc
        = acc ++ rows.flatMap
            (fun row => (enlacesOf row).map (fun enlace => sanitize_and_encode row enlace)) := by
  intro rows
  induction rows with
  | nil => intro acc; simp
  | cons r rs ih =>
    intro acc
    simp [List.foldl_cons, ih, List.append_assoc]

/-- C6: the magnet accumulation loop produces, in row order, one URI per
surviving entry of the comma-split hash field, in entry order; and the
spec example field with an empty entry yields exactly the three trimmed
hashes, hence exactly three magnets. -/
theorem C6_hash_list_expansion :
    (∀ rows : List Row,
        buildMagnets rows
          = rows.flatMap
              (fun row => (enlacesOf row).map (fun enlace => sanitize_and_encode row enlace)))
      ∧ enlacesOf [("Enlace(s)", "h1, h2,,h3")] = ["h1", "h2", "h3"]
      ∧ (buildMagnets [[("Enlace(s)", "h1, h2,,h3")]]).length = 3 := by
  refine ⟨fun rows => ?_, by decide, by decide⟩
  rw [buildMagnets, buildMagnets_foldl]
  simp

lemma pushLoop_noStop (magnets : List String) (bs delay bdelay : Nat) (hb : 0 < bs) :
    ∀ (n j : Nat),
      pushLoop magnets bs delay bdelay (fun _ => false) (j * bs) n
        = (List.range' j n).flatMap (batchBlock magnets bs delay bdelay) := by
  intro n
  induction n with
  | zero => intro j; rfl
  | succ n ih =>
    intro j
    rw [List.range'_succ]
    have hrec : j * bs + bs = (j + 1) * bs := (Nat.succ_mul j bs).symm
    simp only [pushLoop, Nat.mul_div_cancel _ hb, Bool.false_eq_true, if_false,
      List.flatMap_cons, batchBlock, hrec, ih (j + 1), List.cons_append,
      List.append_assoc]

lemma countP_isSubmit_batchBlock (magnets : List String) (bs delay bdelay j : Nat) :
    (batchBlock magnets bs delay bdelay j).countP isSubmit = 1 := by
  by_cases h : (j + 1) % 10 = 0 <;>
    simp [batchBlock, h, isSubmit, List.countP_cons, List.countP_nil]

lemma countP_isSubmit_flatMap (magnets : List String) (bs delay bdelay : Nat) :
    ∀ l : List Nat,
      ((l.flatMap (batchBlock magnets bs delay bdelay)).countP isSubmit) = l.length := by
  intro l
  induction l with
  | nil => rfl
  | cons j js ih =>
    rw [List.flatMap_cons, List.countP_append, ih, countP_isSubmit_batchBlock,
      List.length_cons]
    omega

/-- C7: with authentication succeeding and the interrupt flag never set,
the effect trace of push_to_qbittorrent is the login followed by, for each
batch ordinal below the ceiling of the magnet count over the batch size,
the submission of the corresponding consecutive slice (newline-joined, in
original order), the fixed sleep, and the extra longer sleep exactly after
every 10th batch; in particular the number of submission calls is that
ceiling. -/
theorem C7_batch_submission (magnets : List String) (bs delay bdelay : Nat)
    (hb : 0 < bs) :
    (push_to_qbittorrent "Ok." magnets bs delay bdelay (fun _ => false)).events
        = ApiEvent.login ::
            (List.range (pyRangeLen magnets.length bs)).flatMap
              (batchBlock magnets bs delay bdelay)
      ∧ (push_to_qbittorrent "Ok." magnets bs delay bdelay
            (fun _ => false)).events.countP isSubmit
        = pyRangeLen magnets.length bs := by
  have h0 : (push_to_qbittorrent "Ok." magnets bs delay bdelay (fun _ => false)).events
      = ApiEvent.login ::
          pushLoop magnets bs delay bdelay (fun _ => false) 0
            (pyRangeLen magnets.length bs) := by
    simp [push_to_qbittorrent]
  have h1 : pushLoop magnets bs delay bdelay (fun _ => false) 0
        (pyRangeLen magnets.length bs)
      = (List.range' 0 (pyRangeLen magnets.length bs)).flatMap
          (batchBlock magnets bs delay bdelay) := by
    have h := pushLoop_noStop magnets bs delay bdelay hb (pyRangeLen magnets.length bs) 0
    simpa using h
  constructor
  · rw [h0, h1, List.range_eq_range']
  · rw [h0, h1, List.countP_cons]
    rw [countP_isSubmit_flatMap]
    simp [isSubmit, List.length_range']

/-- C7 witness: 1000 magnets in batches of 400 give exactly three
submission calls and, with distinct fixed and batch delays, no long sleep
appears in the trace. -/
theorem C7_batch_submission_witness :
    (push_to_qbittorrent "Ok." (List.replicate 1000 "h") 400 2 5
        (fun _ => false)).events.countP isSubmit = 3
      ∧ ApiEvent.sleep 5 ∉
          (push_to_qbittorrent "Ok." (List.replicate 1000 "h") 400 2 5
            (fun _ => false)).events := by
  have h := C7_batch_submission (List.replicate 1000 "h") 400 2 5 (by decide)
  constructor
  · exact h.2.trans (by decide)
  · rw [h.1]
    decide

/-- C8: any login response body other than the exact literal Ok-dot makes
the run exit with code 1 immediately after the login post: the trace holds
no batch submission at all. -/
theorem C8_auth_exact_literal (resp : String) (magnets : List String)
    (bs delay bdelay : Nat) (stop : Nat → Bool) (h : resp ≠ "Ok.") :
    push_to_qbittorrent resp magnets bs delay bdelay stop
      = { events := [ApiEvent.login], exitCode := some 1 } := by
  simp [push_to_qbittorrent, h]

/-- C8 witness: the bodies Ok without the period and Ok-dot with
surrounding whitespace both abort before any batch. -/
theorem C8_auth_exact_literal_witness :
    push_to_qbittorrent "Ok" ["m1", "m2"] 400 2 5 (fun _ => false)
        = { events := [ApiEvent.login], exitCode := some 1 }
      ∧ push_to_qbittorrent " Ok. " ["m1", "m2"] 400 2 5 (fun _ => false)
        = { events := [ApiEvent.login], exitCode := some 1 } := by
  exact ⟨C8_auth_exact_literal "Ok" ["m1", "m2"] 400 2 5 (fun _ => false) (by decide),
    C8_auth_exact_literal " Ok. " ["m1", "m2"] 400 2 5 (fun _ => false) (by decide)⟩

lemma pushLoop_stop_front (magnets : List String) (bs delay bdelay : Nat)
    (stop : Nat → Bool) (hb : 0 < bs) :
    ∀ (n j : Nat), ∃ m, m ≤ n ∧ (∀ l, l < m → stop (j + l) = false) ∧
      pushLoop magnets bs delay bdelay stop (j * bs) n
        = (List.range' j m).flatMap (batchBlock magnets bs delay bdelay) := by
  intro n
  induction n with
  | zero =>
    intro j
    exact ⟨0, le_rfl, fun l hl => absurd hl (Nat.not_lt_zero l), rfl⟩
  | succ n ih =>
    intro j
    by_cases hs : stop j = true
    · refine ⟨0, Nat.zero_le _, fun l hl => absurd hl (Nat.not_lt_zero l), ?_⟩
      simp [pushLoop, Nat.mul_div_cancel _ hb, hs]
    · have hsf : stop j = false := by
        revert hs
        cases stop j <;> simp
      obtain ⟨m, hmn, hfalse, heq⟩ := ih (j + 1)
      refine ⟨m + 1, Nat.succ_le_succ hmn, ?_, ?_⟩
      · intro l hl
        cases l with
        | zero => simpa using hsf
        | succ l0 =>
          have h0 := hfalse l0 (Nat.lt_of_succ_lt_succ hl)
          have harg : j + (l0 + 1) = (j + 1) + l0 := by omega
          rw [harg]
          exact h0
      · have hrec : j * bs + bs = (j + 1) * bs := (Nat.succ_mul j bs).symm
        rw [List.range'_succ]
        simp only [pushLoop, Nat.mul_div_cancel _ hb, hsf, Bool.false_eq_true, if_false,
          List.flatMap_cons, batchBlock, hrec, heq, List.cons_append,
          List.append_assoc]

/-- C9: the flag is polled at the head of each iteration: if the flag
reads true at batch ordinal k, the whole trace is the login followed by
the blocks of the first m batches for some m at most k (and at most the
batch count), in order — so the batch at which the flag is set and all
later batches are never submitted, while the earlier submissions remain
in the trace (no rollback), and exactly m submissions occur. -/
theorem C9_cooperative_cancellation (magnets : List String)
    (bs delay bdelay : Nat) (stop : Nat → Bool) (k : Nat)
    (hb : 0 < bs) (hk : stop k = true) :
    ∃ m, m ≤ k ∧ m ≤ pyRangeLen magnets.length bs ∧
      (push_to_qbittorrent "Ok." magnets bs delay bdelay stop).events
        = ApiEvent.login ::
            (List.range m).flatMap (batchBlock magnets bs delay bdelay)
      ∧ (push_to_qbittorrent "Ok." magnets bs delay bdelay stop).events.countP isSubmit
        = m := by
  obtain ⟨m, hmn, hfalse, heq⟩ :=
    (pushLoop_stop_front magnets bs delay bdelay stop hb
      (pyRangeLen magnets.length bs) 0).imp
      (fun m h => h)
  have hmk : m ≤ k := by
    by_contra hlt
    have : stop (0 + k) = false := hfalse k (by omega)
    simp only [Nat.zero_add] at this
    rw [this] at hk
    exact Bool.false_ne_true hk
  have hev : (push_to_qbittorrent "Ok." magnets bs delay bdelay stop).events
      = ApiEvent.login ::
          (List.range m).flatMap (batchBlock magnets bs delay bdelay) := by
    have h0 : (push_to_qbittorrent "Ok." magnets bs delay bdelay stop).events
        = ApiEvent.login ::
            pushLoop magnets bs delay bdelay stop 0 (pyRangeLen magnets.length bs) := by
      simp [push_to_qbittorrent]
    rw [Nat.zero_mul] at heq
    rw [h0, heq, List.range_eq_range']
  refine ⟨m, hmk, hmn, hev, ?_⟩
  rw [hev, List.countP_cons, countP_isSubmit_flatMap]
  simp [isSubmit, List.length_range]

/-- C9 witness: with the flag raised from batch ordinal 1 on, five magnets
in batches of two submit at most one batch. -/
theorem C9_cooperative_cancellation_witness :
    (push_to_qbittorrent "Ok." ["a", "b", "c", "d", "e"] 2 7 9
        (fun j => decide (1 ≤ j))).events.countP isSubmit ≤ 1 := by
  obtain ⟨m, hmk, _, _, hcount⟩ :=
    C9_cooperative_cancellation ["a", "b", "c", "d", "e"] 2 7 9
      (fun j => decide (1 ≤ j)) 1 (by decide) (by decide)
  rw [hcount]
  exact hmk

/-- C10: on a row carrying none of the identifier candidate columns and no
Revisión column, the magnet builder still succeeds: the identifier slot of
the display name is the literal NA and the revision slot renders the
Python None value as the text None. -/
theorem C10_missing_metadata (row : Row)
    (h1 : getField? row "EPL Id" = none) (h2 : getField? row "Id" = none)
    (h3 : getField? row "ID" = none) (h4 : getField? row "epl_id" = none)
    (h5 : getField? row "Revisión" = none) :
    eplIdOf row = "NA"
      ∧ revStrOf row = "None"
      ∧ displayNameOf row = pyStrip ("EPL_[NA]_" ++ titleOf row ++ "_(rNone)")
      ∧ ∀ enlace : String,
          sanitize_and_encode row enlace
            = "magnet:?xt=urn:btih:" ++ enlace ++ "&dn="
                ++ pyStrip ("EPL_[NA]_" ++ titleOf row ++ "_(rNone)")
                ++ "&" ++ trackersParam := by
  have hid : eplIdOf row = "NA" := by
    simp [eplIdOf, pyOrOpt, h1, h2, h3, h4]
  have hrev : revStrOf row = "None" := by
    simp [revStrOf, h5]
  have hdn : displayNameOf row = pyStrip ("EPL_[NA]_" ++ titleOf row ++ "_(rNone)") := by
    rw [displayNameOf, hid, hrev]
    congr 1
    rw [String.append_assoc, String.append_assoc]
    rfl
  refine ⟨hid, hrev, hdn, fun enlace => ?_⟩
  rw [sanitize_and_encode, hdn]

/-- C10 witness: a row holding only a title produces the NA identifier and
the textual None revision in a complete magnet URI. -/
theorem C10_missing_metadata_witness :
    eplIdOf [("Título", "Libro")] = "NA"
      ∧ revStrOf [("Título", "Libro")] = "None"
      ∧ sanitize_and_encode [("Título", "Libro")] "abc123"
        = "magnet:?xt=urn:btih:" ++ "abc123" ++ "&dn="
            ++ pyStrip ("EPL_[NA]_" ++ titleOf [("Título", "Libro")] ++ "_(rNone)")
            ++ "&" ++ trackersParam := by
  have h := C10_missing_metadata [("Título", "Libro")] rfl rfl rfl rfl rfl
  exact ⟨h.1, h.2.1, h.2.2.2 "abc123"⟩

end EplTools
